import Mathlib

set_option maxRecDepth 8000

/-!
Verification of the orb-qr-link QR data-link protocol core (encode / decode /
hash / verify) and the mcu-util Orb hardware-revision display formatting.

The crate root `orb-qr-link/src/lib.rs` declares the modules `encode`,
`decode` and `user_data` and re-exports `encode_qr`, `decode_qr`,
`DecodeError`, `UserData` and `DataPolicy`; the bodies of those modules are
not part of the available sources, so the definitions below are modelled
from the specification of the protocol (wire format
`base64_no_padding(session_id_bytes[16] || authenticator_bytes[n])` with the
standard base64 alphabet, a 256-bit digest truncated to the requested
length, length-prefixed field serialization with a single-byte enum tag, and
the error taxonomy `InvalidEncoding` / `PayloadTooShort` /
`AuthenticatorLengthUnsupported`).

Bytes are modelled as `Nat` values below 256, byte strings as `List Nat`,
and text as `String` (operating on its underlying `List Char`).
-/

/-! ### Base64 (standard alphabet, no padding)

Modelled from the spec: the wire rendering of `orb-qr-link`'s `encode`
module, which is not among the available sources.  The alphabet is the
standard base64 alphabet `A-Z a-z 0-9 + /` and no `=` padding is emitted;
the decoder rejects any character outside the alphabet, any input length
that no unpadded encoding produces, and non-zero trailing bits. -/

/-- The standard base64 alphabet, in value order: index `v` holds the
character encoding the sextet `v`. -/
def b64Alphabet : List Char :=
  "ABCDEFGHIJKLMNOPQRSTUVWXYZabcdefghijklmnopqrstuvwxyz0123456789+/".data

/-- Character encoding the sextet `v` (callers only use `v < 64`). -/
def b64Char (v : Nat) : Char := b64Alphabet.getD v 'A'

/-- Linear scan of a list, returning the index of the first occurrence of
`c`, starting the count at `i`. -/
def lookupIdx (c : Char) : List Char → Nat → Option Nat
  | [], _ => none
  | a :: rest, i => if a = c then some i else lookupIdx c rest (i + 1)

/-- Sextet value of a base64 character; `none` when the character is not in
the alphabet. -/
def b64Value (c : Char) : Option Nat := lookupIdx c b64Alphabet 0

/-- Encode a full 3-byte group as 4 characters. -/
def encode3 (a b c : Nat) : List Char :=
  [b64Char ((a * 65536 + b * 256 + c) / 262144),
   b64Char ((a * 65536 + b * 256 + c) / 4096 % 64),
   b64Char ((a * 65536 + b * 256 + c) / 64 % 64),
   b64Char ((a * 65536 + b * 256 + c) % 64)]

/-- Encode a trailing 2-byte group as 3 characters (2 zero trailing bits). -/
def encode2 (a b : Nat) : List Char :=
  [b64Char ((a * 256 + b) / 1024),
   b64Char ((a * 256 + b) / 16 % 64),
   b64Char ((a * 256 + b) % 16 * 4)]

/-- Encode a trailing 1-byte group as 2 characters (4 zero trailing bits). -/
def encode1 (a : Nat) : List Char :=
  [b64Char (a / 4), b64Char (a % 4 * 16)]

/-- Base64-encode a byte string with no padding characters. -/
def b64Encode : List Nat → List Char
  | a :: b :: c :: rest => encode3 a b c ++ b64Encode rest
  | [a, b] => encode2 a b
  | [a] => encode1 a
  | [] => []

/-- Base64-decode a character string with no padding; `none` on any
character outside the alphabet, on a length no unpadded encoding produces
(1 mod 4), and on non-zero trailing bits. -/
def b64Decode : List Char → Option (List Nat)
  | [] => some []
  | [_] => none
  | [c1, c2] =>
    match b64Value c1, b64Value c2 with
    | some v1, some v2 =>
      if v2 % 16 = 0 then some [v1 * 4 + v2 / 16] else none
    | _, _ => none
  | [c1, c2, c3] =>
    match b64Value c1, b64Value c2, b64Value c3 with
    | some v1, some v2, some v3 =>
      if v3 % 4 = 0 then
        some [(v1 * 4096 + v2 * 64 + v3) / 1024,
              (v1 * 4096 + v2 * 64 + v3) / 4 % 256]
      else none
    | _, _, _ => none
  | c1 :: c2 :: c3 :: c4 :: rest =>
    match b64Value c1, b64Value c2, b64Value c3, b64Value c4,
        b64Decode rest with
    | some v1, some v2, some v3, some v4, some tail =>
      some ([(v1 * 262144 + v2 * 4096 + v3 * 64 + v4) / 65536,
             (v1 * 262144 + v2 * 4096 + v3 * 64 + v4) / 256 % 256,
             (v1 * 262144 + v2 * 4096 + v3 * 64 + v4) % 256] ++ tail)
    | _, _, _, _, _ => none

/-! ### Wire codec

Modelled from the spec: `encode_qr` concatenates the 16 raw session-id
bytes with the authenticator bytes and renders the buffer as unpadded
base64; `decode_qr` reverses the text transform, demands at least 17
decoded bytes, and splits them 16 / rest. -/

/-- Decode failures, distinguishable to the caller. -/
inductive DecodeError where
  | InvalidEncoding : DecodeError
  | PayloadTooShort : DecodeError
deriving DecidableEq

/-- Encode a QR payload: base64 of the 16 session-id bytes followed by the
authenticator bytes. -/
def encode_qr (session_id : List Nat) (authenticator : List Nat) : String :=
  String.mk (b64Encode (session_id ++ authenticator))

/-- Decode a QR payload back into the session-id bytes and the
authenticator bytes; the authenticator length is the total decoded length
minus 16. -/
def decode_qr (s : String) : Except DecodeError (List Nat × List Nat) :=
  match b64Decode s.data with
  | none => Except.error DecodeError.InvalidEncoding
  | some bytes =>
    if bytes.length < 17 then Except.error DecodeError.PayloadTooShort
    else Except.ok (bytes.take 16, bytes.drop 16)

/-! ### SHA-256

Modelled from the spec: the spec prescribes "a standard cryptographic
digest (e.g., a 256-bit digest) over the serialized bytes"; SHA-256
(FIPS 180-4) is used here as that 256-bit digest.  Words are `Nat` values
reduced modulo `2 ^ 32`; messages and digests are byte lists. -/

/-- Right-rotation of a 32-bit word. -/
def rotr32 (n x : Nat) : Nat := (x / 2 ^ n + x % 2 ^ n * 2 ^ (32 - n)) % 4294967296

/-- The 64 SHA-256 round constants (FIPS 180-4 section 4.2.2), written in
decimal. -/
def K256 : List Nat :=
  [1116352408, 1899447441, 3049323471, 3921009573, 961987163,
   1508970993, 2453635748, 2870763221, 3624381080, 310598401,
   607225278, 1426881987, 1925078388, 2162078206, 2614888103,
   3248222580, 3835390401, 4022224774, 264347078, 604807628,
   770255983, 1249150122, 1555081692, 1996064986, 2554220882,
   2821834349, 2952996808, 3210313671, 3336571891, 3584528711,
   113926993, 338241895, 666307205, 773529912, 1294757372,
   1396182291, 1695183700, 1986661051, 2177026350, 2456956037,
   2730485921, 2820302411, 3259730800, 3345764771, 3516065817,
   3600352804, 4094571909, 275423344, 430227734, 506948616,
   659060556, 883997877, 958139571, 1322822218, 1537002063,
   1747873779, 1955562222, 2024104815, 2227730452, 2361852424,
   2428436474, 2756734187, 3204031479, 3329325298]

/-- The SHA-256 initial hash value (FIPS 180-4 section 5.3.3), written in
decimal. -/
def H256 : List Nat :=
  [1779033703, 3144134277, 1013904242, 2773480762,
   1359893119, 2600822924, 528734635, 1541459225]

/-- Big-endian 8-byte rendering of the message bit length. -/
def u64be (n : Nat) : List Nat :=
  [n / 2 ^ 56 % 256, n / 2 ^ 48 % 256, n / 2 ^ 40 % 256, n / 2 ^ 32 % 256,
   n / 2 ^ 24 % 256, n / 2 ^ 16 % 256, n / 2 ^ 8 % 256, n % 256]

/-- SHA-256 padding: a `0x80` byte, zero bytes up to 56 mod 64, then the
bit length as a big-endian 64-bit integer. -/
def sha256Pad (msg : List Nat) : List Nat :=
  msg ++ [128] ++ List.replicate ((119 - msg.length % 64) % 64) 0
    ++ u64be (msg.length * 8)

/-- Split a byte list into successive 64-byte blocks; the fuel argument
(always instantiated with the list length, which bounds the number of
blocks) keeps the recursion structural. -/
def chunks64Aux : Nat → List Nat → List (List Nat)
  | _, [] => []
  | 0, _ :: _ => []
  | fuel + 1, a :: rest => ((a :: rest).take 64) :: chunks64Aux fuel ((a :: rest).drop 64)

/-- Split a byte list into successive 64-byte blocks. -/
def chunks64 (l : List Nat) : List (List Nat) := chunks64Aux l.length l

/-- Combine successive 4-byte groups into big-endian 32-bit words. -/
def bytesToWords : List Nat → List Nat
  | a :: b :: c :: d :: rest =>
    (a * 16777216 + b * 65536 + c * 256 + d) % 4294967296 :: bytesToWords rest
  | _ => []

/-- The next word of the SHA-256 message schedule, from the last 16 words
accumulated so far. -/
def nextScheduleWord (ws : List Nat) : Nat :=
  let w15 := ws.getD (ws.length - 15) 0
  let w2 := ws.getD (ws.length - 2) 0
  let s0 := Nat.xor (Nat.xor (rotr32 7 w15) (rotr32 18 w15)) (w15 / 2 ^ 3)
  let s1 := Nat.xor (Nat.xor (rotr32 17 w2) (rotr32 19 w2)) (w2 / 2 ^ 10)
  (ws.getD (ws.length - 16) 0 + s0 + ws.getD (ws.length - 7) 0 + s1) % 4294967296

/-- Extend the message schedule by `k` further words. -/
def extendSchedule : List Nat → Nat → List Nat
  | ws, 0 => ws
  | ws, k + 1 => extendSchedule (ws ++ [nextScheduleWord ws]) k

/-- One SHA-256 compression round on the state `[a,b,c,d,e,f,g,h]`, with
round constant `ki` and schedule word `wi`. -/
def sha256Round (st : List Nat) (ki wi : Nat) : List Nat :=
  let a := st.getD 0 0
  let b := st.getD 1 0
  let c := st.getD 2 0
  let d := st.getD 3 0
  let e := st.getD 4 0
  let f := st.getD 5 0
  let g := st.getD 6 0
  let h := st.getD 7 0
  let S1 := Nat.xor (Nat.xor (rotr32 6 e) (rotr32 11 e)) (rotr32 25 e)
  let ch := Nat.xor (Nat.land e f) (Nat.land (4294967295 - e) g)
  let temp1 := (h + S1 + ch + ki + wi) % 4294967296
  let S0 := Nat.xor (Nat.xor (rotr32 2 a) (rotr32 13 a)) (rotr32 22 a)
  let maj := Nat.xor (Nat.xor (Nat.land a b) (Nat.land a c)) (Nat.land b c)
  let temp2 := (S0 + maj) % 4294967296
  [(temp1 + temp2) % 4294967296, a, b, c, (d + temp1) % 4294967296, e, f, g]

/-- Compress one 64-byte block into the running hash value. -/
def sha256Block (h : List Nat) (block : List Nat) : List Nat :=
  let ws := extendSchedule (bytesToWords block) 48
  let st := (K256.zip ws).foldl (fun st p => sha256Round st p.1 p.2) h
  List.zipWith (fun x y => (x + y) % 4294967296) h st

/-- Big-endian byte rendering of a list of 32-bit words. -/
def wordsToBytes : List Nat → List Nat
  | [] => []
  | w :: rest =>
    w / 16777216 % 256 :: w / 65536 % 256 :: w / 256 % 256 :: w % 256
      :: wordsToBytes rest

/-- The SHA-256 digest (32 bytes) of a byte-list message. -/
def sha256 (msg : List Nat) : List Nat :=
  wordsToBytes ((chunks64 (sha256Pad msg)).foldl sha256Block H256)

/-! ### UserData, hash and verify

Modelled from the spec: the `user_data` module of `orb-qr-link` is not
among the available sources.  The Record carries an identity-commitment
string, a self-custody public-key string and a `DataPolicy`; its canonical
serialization is length-prefixed string fields (8-byte little-endian
length, then the UTF-8 bytes) followed by a single-byte enum tag; `hash`
truncates the 256-bit digest of that serialization to the requested length
and rejects lengths beyond the digest's native 32-byte output;
`verify` recomputes the hash at the supplied authenticator's own length
and compares byte-for-byte. -/

/-- The data-sharing policy selector, a closed two-variant enumeration. -/
inductive DataPolicy where
  | OptIn : DataPolicy
  | OptOut : DataPolicy
deriving DecidableEq

/-- Serialization tag of a `DataPolicy` value, in declaration order. -/
def dataPolicyTag : DataPolicy → Nat
  | DataPolicy.OptIn => 0
  | DataPolicy.OptOut => 1

/-- The record uploaded to the backend and verified by the scanner. -/
structure UserData where
  identity_commitment : String
  self_custody_public_key : String
  data_policy : DataPolicy

/-- UTF-8 bytes of one character. -/
def utf8CharBytes (c : Char) : List Nat :=
  if c.toNat < 128 then [c.toNat]
  else if c.toNat < 2048 then [192 + c.toNat / 64, 128 + c.toNat % 64]
  else if c.toNat < 65536 then
    [224 + c.toNat / 4096, 128 + c.toNat / 64 % 64, 128 + c.toNat % 64]
  else
    [240 + c.toNat / 262144, 128 + c.toNat / 4096 % 64,
     128 + c.toNat / 64 % 64, 128 + c.toNat % 64]

/-- UTF-8 bytes of a string. -/
def utf8Bytes (s : String) : List Nat :=
  s.data.foldr (fun c acc => utf8CharBytes c ++ acc) []

/-- Little-endian 8-byte length framing for a variable-length field. -/
def lenBytes8 (n : Nat) : List Nat :=
  [n % 256, n / 2 ^ 8 % 256, n / 2 ^ 16 % 256, n / 2 ^ 24 % 256,
   n / 2 ^ 32 % 256, n / 2 ^ 40 % 256, n / 2 ^ 48 % 256, n / 2 ^ 56 % 256]

/-- Canonical byte serialization of a `UserData` record: each string field
length-prefixed, then the single policy tag byte. -/
def serializeUserData (u : UserData) : List Nat :=
  lenBytes8 (utf8Bytes u.identity_commitment).length
    ++ utf8Bytes u.identity_commitment
    ++ lenBytes8 (utf8Bytes u.self_custody_public_key).length
    ++ utf8Bytes u.self_custody_public_key
    ++ [dataPolicyTag u.data_policy]

/-- Failure of `UserData.hash`, distinguishable to the caller. -/
inductive HashError where
  | AuthenticatorLengthUnsupported : HashError
deriving DecidableEq

/-- Native output size of the underlying digest, in bytes. -/
def digestSize : Nat := 32

/-- Variable-length authenticator of a record: the 256-bit digest of the
canonical serialization truncated to the first `n` bytes; a request past
the digest's native output size is a deterministic typed failure. -/
def UserData.hash (u : UserData) (n : Nat) : Except HashError (List Nat) :=
  if digestSize < n then Except.error HashError.AuthenticatorLengthUnsupported
  else Except.ok ((sha256 (serializeUserData u)).take n)

/-- Verify a record against a previously decoded authenticator: recompute
the hash at the authenticator's own length and compare byte-for-byte. -/
def UserData.verify (u : UserData) (authenticator : List Nat) : Bool :=
  match u.hash authenticator.length with
  | Except.ok h => authenticator == h
  | Except.error _ => false

/-! ### Orb hardware-revision display (mcu-util)

Embedded from `src/mcu-util/src/orb/revision.rs`.  `OrbRevision` wraps the
hardware message's `version` field, an `i32` modelled as `Int`; the
numeric tag of `OrbVersion::HwVersionDiamondPoc1` comes from the external
`orb_messages` crate and is therefore kept as an explicit parameter of the
formatting function. -/

/-- Wrapper around the hardware version number reported by the main MCU. -/
structure OrbRevision where
  version : Int

/-- The `Display` implementation of `OrbRevision`: versions below the
`HwVersionDiamondPoc1` tag (passed as `poc1`) print as `EVT{version}`, and
later ones as `Diamond_POC{version - poc1 + 1}`. -/
def orbRevisionDisplay (poc1 : Int) (r : OrbRevision) : String :=
  if r.version < poc1 then "EVT" ++ toString r.version
  else "Diamond_POC" ++ toString (r.version - poc1 + 1)

/-! ### Concrete fixtures used by witnesses -/

/-- The documented example QR string from the crate root's decode example. -/
def qrExample : String := "3WVd+tbAtSgyH0Ce9uiKT9i063t/xG2HxTIhuNa+gNnM"

/-- The empty input string. -/
def emptyText : String := ""

/-- A string containing characters outside the base64 alphabet. -/
def badCharText : String := "abc %"

/-- A sample record used to instantiate universally quantified theorems. -/
def sampleUserData : UserData :=
  { identity_commitment := "id"
    self_custody_public_key := "pk"
    data_policy := DataPolicy.OptIn }

/-- A sample all-zero 16-byte session id. -/
def sampleSessionId : List Nat := List.replicate 16 0

/-! ## Helper lemmas -/

/-- Encoding a sextet and reading it back recovers the sextet. -/
theorem b64Value_b64Char : ∀ v < 64, b64Value (b64Char v) = some v := by decide

/-- Decoding an unpadded base64 encoding of a byte string recovers the byte
string. -/
theorem b64_roundtrip : ∀ (bs : List Nat), (∀ x ∈ bs, x < 256) →
    b64Decode (b64Encode bs) = some bs
  | [], _ => rfl
  | [a], h => by
    have ha : a < 256 := h a (by simp)
    have h1 := b64Value_b64Char (a / 4) (by omega)
    have h2 := b64Value_b64Char (a % 4 * 16) (by omega)
    simp only [b64Encode, encode1, b64Decode, h1, h2]
    rw [if_pos (by omega)]
    simp only [Option.some.injEq, List.cons.injEq, and_true]
    omega
  | [a, b], h => by
    have ha : a < 256 := h a (by simp)
    have hb : b < 256 := h b (by simp)
    have h1 := b64Value_b64Char ((a * 256 + b) / 1024) (by omega)
    have h2 := b64Value_b64Char ((a * 256 + b) / 16 % 64) (by omega)
    have h3 := b64Value_b64Char ((a * 256 + b) % 16 * 4) (by omega)
    simp only [b64Encode, encode2, b64Decode, h1, h2, h3]
    rw [if_pos (by omega)]
    simp only [Option.some.injEq, List.cons.injEq, and_true]
    omega
  | a :: b :: c :: rest, h => by
    have ha : a < 256 := h a (by simp)
    have hb : b < 256 := h b (by simp)
    have hc : c < 256 := h c (by simp)
    have ih := b64_roundtrip rest (fun x hx => h x (by simp [hx]))
    have h1 := b64Value_b64Char ((a * 65536 + b * 256 + c) / 262144) (by omega)
    have h2 := b64Value_b64Char ((a * 65536 + b * 256 + c) / 4096 % 64) (by omega)
    have h3 := b64Value_b64Char ((a * 65536 + b * 256 + c) / 64 % 64) (by omega)
    have h4 := b64Value_b64Char ((a * 65536 + b * 256 + c) % 64) (by omega)
    simp only [b64Encode, encode3, List.cons_append, List.nil_append,
      List.append_eq, b64Decode, h1, h2, h3, h4, ih]
    simp only [Option.some.injEq, List.cons.injEq, and_true]
    refine ⟨by omega, by omega, by omega⟩

/-- A character absent from a list is not found by the indexed scan. -/
theorem lookupIdx_eq_none (c : Char) :
    ∀ (l : List Char) (i : Nat), c ∉ l → lookupIdx c l i = none
  | [], _, _ => rfl
  | a :: rest, i, h => by
    have hne : a ≠ c := fun e => h (by simp [e])
    simp only [lookupIdx, if_neg hne]
    exact lookupIdx_eq_none c rest (i + 1) (fun hc => h (by simp [hc]))

/-- A character outside the alphabet has no sextet value. -/
theorem b64Value_eq_none {c : Char} (h : c ∉ b64Alphabet) : b64Value c = none :=
  lookupIdx_eq_none c b64Alphabet 0 h

/-- Any input containing a character outside the alphabet fails to decode. -/
theorem b64Decode_eq_none_of_bad :
    ∀ (l : List Char), (∃ c ∈ l, c ∉ b64Alphabet) → b64Decode l = none
  | [], h => by simp at h
  | [_], _ => rfl
  | [c1, c2], h => by
    rcases h with ⟨c, hc, hna⟩
    have hnone := b64Value_eq_none hna
    simp only [List.mem_cons, List.not_mem_nil, or_false] at hc
    rcases hc with rfl | rfl
    · simp [b64Decode, hnone]
    · cases hv : b64Value c1 <;> simp [b64Decode, hv, hnone]
  | [c1, c2, c3], h => by
    rcases h with ⟨c, hc, hna⟩
    have hnone := b64Value_eq_none hna
    simp only [List.mem_cons, List.not_mem_nil, or_false] at hc
    rcases hc with rfl | rfl | rfl
    · simp [b64Decode, hnone]
    · cases hv : b64Value c1 <;> simp [b64Decode, hv, hnone]
    · cases hv : b64Value c1 <;> cases hw : b64Value c2 <;>
        simp [b64Decode, hv, hw, hnone]
  | c1 :: c2 :: c3 :: c4 :: rest, h => by
    rcases h with ⟨c, hc, hna⟩
    have hnone := b64Value_eq_none hna
    simp only [List.mem_cons] at hc
    rcases hc with rfl | rfl | rfl | rfl | hmem
    · simp [b64Decode, hnone]
    · cases hv : b64Value c1 <;> simp [b64Decode, hv, hnone]
    · cases hv : b64Value c1 <;> cases hw : b64Value c2 <;>
        simp [b64Decode, hv, hw, hnone]
    · cases hv : b64Value c1 <;> cases hw : b64Value c2 <;>
        cases hx : b64Value c3 <;> simp [b64Decode, hv, hw, hx, hnone]
    · have ht := b64Decode_eq_none_of_bad rest ⟨c, hmem, hna⟩
      cases hv : b64Value c1 <;> cases hw : b64Value c2 <;>
        cases hx : b64Value c3 <;> cases hy : b64Value c4 <;>
        simp [b64Decode, hv, hw, hx, hy, ht]

/-- Every character the sextet encoder emits is in the alphabet. -/
theorem b64Char_mem (v : Nat) : b64Char v ∈ b64Alphabet := by
  unfold b64Char
  rw [List.getD_eq_getElem?_getD]
  rcases Nat.lt_or_ge v b64Alphabet.length with h | h
  · rw [List.getElem?_eq_getElem h]
    exact List.getElem_mem h
  · rw [List.getElem?_eq_none h]
    decide

/-- Every character the base64 encoder emits is in the alphabet. -/
theorem mem_b64Encode :
    ∀ (bs : List Nat) (c : Char), c ∈ b64Encode bs → c ∈ b64Alphabet
  | [], _, hc => by simp [b64Encode] at hc
  | [a], c, hc => by
    simp only [b64Encode, encode1, List.mem_cons, List.not_mem_nil, or_false] at hc
    rcases hc with rfl | rfl <;> exact b64Char_mem _
  | [a, b], c, hc => by
    simp only [b64Encode, encode2, List.mem_cons, List.not_mem_nil, or_false] at hc
    rcases hc with rfl | rfl | rfl <;> exact b64Char_mem _
  | a :: b :: d :: rest, c, hc => by
    simp only [b64Encode, encode3, List.cons_append, List.nil_append,
      List.mem_cons] at hc
    rcases hc with rfl | rfl | rfl | rfl | hmem
    · exact b64Char_mem _
    · exact b64Char_mem _
    · exact b64Char_mem _
    · exact b64Char_mem _
    · exact mem_b64Encode rest c hmem

/-! ## Claim theorems: wire codec -/

/-- C1: for every 16-byte session id and every authenticator of length
between 1 and the digest's native output size, decoding the text produced
by encoding the pair returns exactly the same pair, the authenticator
length being recovered as total decoded length minus 16. -/
theorem qr_roundtrip (session_id authenticator : List Nat)
    (hsl : session_id.length = 16) (hsb : ∀ x ∈ session_id, x < 256)
    (hal : 1 ≤ authenticator.length) (hau : authenticator.length ≤ digestSize)
    (hab : ∀ x ∈ authenticator, x < 256) :
    decode_qr (encode_qr session_id authenticator) =
      Except.ok (session_id, authenticator) := by
  have hall : ∀ x ∈ session_id ++ authenticator, x < 256 := by
    intro x hx
    rcases List.mem_append.1 hx with h | h
    · exact hsb x h
    · exact hab x h
  have hrt := b64_roundtrip (session_id ++ authenticator) hall
  have hlen : (session_id ++ authenticator).length = 16 + authenticator.length := by
    simp [hsl]
  simp only [decode_qr, encode_qr, hrt]
  rw [if_neg (by omega)]
  rw [List.take_left' hsl, List.drop_left' hsl]

/-- Witness for C1 at a concrete all-zero session id and a one-byte
authenticator. -/
theorem qr_roundtrip_witness :
    decode_qr (encode_qr sampleSessionId [1]) =
      Except.ok (sampleSessionId, [1]) :=
  qr_roundtrip sampleSessionId [1] (by decide) (by decide) (by decide)
    (by decide) (by decide)

/-- C3: any input that is valid base64 but decodes to fewer than 17 bytes
is rejected with the typed error `PayloadTooShort`. -/
theorem decode_qr_too_short (s : String) (bs : List Nat)
    (hd : b64Decode s.data = some bs) (hl : bs.length < 17) :
    decode_qr s = Except.error DecodeError.PayloadTooShort := by
  simp only [decode_qr, hd]
  rw [if_pos hl]

/-- Witness for C3 at the empty input string, which decodes to 0 bytes. -/
theorem decode_qr_too_short_witness :
    decode_qr emptyText = Except.error DecodeError.PayloadTooShort :=
  decode_qr_too_short emptyText [] rfl (by decide)

/-- C4: any input containing a character outside the standard base64
alphabet is rejected with the typed error `InvalidEncoding`, which is
distinguishable from `PayloadTooShort`. -/
theorem decode_qr_bad_char (s : String)
    (h : ∃ c ∈ s.data, c ∉ b64Alphabet) :
    decode_qr s = Except.error DecodeError.InvalidEncoding ∧
      DecodeError.InvalidEncoding ≠ DecodeError.PayloadTooShort := by
  refine ⟨?_, by decide⟩
  have hd := b64Decode_eq_none_of_bad s.data h
  simp only [decode_qr, hd]

/-- Witness for C4 at a string containing a space and a percent sign. -/
theorem decode_qr_bad_char_witness :
    decode_qr badCharText = Except.error DecodeError.InvalidEncoding ∧
      DecodeError.InvalidEncoding ≠ DecodeError.PayloadTooShort :=
  decode_qr_bad_char badCharText (by decide)

/-- C6: encode is total over 16-byte session ids and nonempty
authenticators and returns exactly the unpadded base64 rendering of the
flat 16+n byte buffer, every output character lying in the standard base64
alphabet and no `=` padding character appearing. -/
theorem encode_qr_spec (session_id authenticator : List Nat)
    (hsl : session_id.length = 16) (hal : 1 ≤ authenticator.length) :
    encode_qr session_id authenticator =
        String.mk (b64Encode (session_id ++ authenticator)) ∧
      (encode_qr session_id authenticator).data.all b64Alphabet.contains = true ∧
      (encode_qr session_id authenticator).data.contains '=' = false := by
  refine ⟨rfl, ?_, ?_⟩
  · rw [List.all_eq_true]
    intro c hc
    have hmem : c ∈ b64Alphabet :=
      mem_b64Encode (session_id ++ authenticator) c hc
    exact List.elem_iff.2 hmem
  · rw [← Bool.not_eq_true]
    intro hfalse
    have hc : '=' ∈ (encode_qr session_id authenticator).data :=
      List.elem_iff.1 hfalse
    have hmem : '=' ∈ b64Alphabet :=
      mem_b64Encode (session_id ++ authenticator) '=' hc
    revert hmem
    decide

/-- Witness for C6 at a concrete all-zero session id and a one-byte
authenticator. -/
theorem encode_qr_spec_witness :
    encode_qr sampleSessionId [0] =
        String.mk (b64Encode (sampleSessionId ++ [0])) ∧
      (encode_qr sampleSessionId [0]).data.all b64Alphabet.contains = true ∧
      (encode_qr sampleSessionId [0]).data.contains '=' = false :=
  encode_qr_spec sampleSessionId [0] (by decide) (by decide)

/-- C9: the documented example QR string decodes successfully into a
16-byte session id and a 17-byte authenticator. -/
theorem decode_qr_example :
    (decode_qr qrExample).map (fun p => (p.1.length, p.2.length)) =
      Except.ok (16, 17) := rfl

/-! ## Claim theorems: hash and verify -/

/-- Within the digest's native size, `hash` succeeds with the truncated
digest of the canonical serialization. -/
theorem hash_ok (u : UserData) (n : Nat) (hn : n ≤ digestSize) :
    u.hash n = Except.ok ((sha256 (serializeUserData u)).take n) := by
  unfold UserData.hash
  rw [if_neg (by omega)]

/-- Truncating a list to the length of one of its own prefixes yields that
prefix. -/
theorem take_length_take {α : Type} (l : List α) (n : Nat) :
    l.take (l.take n).length = l.take n := by
  rw [List.length_take]
  rcases Nat.le_total n l.length with h | h
  · rw [min_eq_left h]
  · rw [min_eq_right h, List.take_length, List.take_of_length_le h]

/-- C2: `verify` accepts the hash the record itself produces at any valid
length, and accepts an arbitrary byte string exactly when it equals the
recomputed hash at that byte string's own length. -/
theorem verify_correct (u : UserData) (n : Nat) (hn : n ≤ digestSize)
    (h : List Nat) (hh : u.hash n = Except.ok h) (bs : List Nat) :
    u.verify h = true ∧
      (u.verify bs = true ↔ u.hash bs.length = Except.ok bs) := by
  constructor
  · have hhv : h = (sha256 (serializeUserData u)).take n := by
      rw [hash_ok u n hn] at hh
      exact (Except.ok.inj hh).symm
    subst hhv
    have hlen : ((sha256 (serializeUserData u)).take n).length ≤ digestSize := by
      rw [List.length_take]
      have := min_le_left n (sha256 (serializeUserData u)).length
      omega
    unfold UserData.verify
    rw [hash_ok u _ hlen, take_length_take]
    simp
  · unfold UserData.verify
    cases hcase : u.hash bs.length with
    | error e => simp [hcase]
    | ok hv =>
      simp only [hcase, beq_iff_eq]
      exact ⟨fun e => by rw [e], fun e => (Except.ok.inj e).symm⟩

/-- Witness for C2 at a concrete record, a 4-byte hash and the byte string
`[0]`. -/
theorem verify_correct_witness :
    UserData.verify sampleUserData
        ((sha256 (serializeUserData sampleUserData)).take 4) = true ∧
      (UserData.verify sampleUserData [0] = true ↔
        UserData.hash sampleUserData 1 = Except.ok [0]) :=
  verify_correct sampleUserData 4 (by decide)
    ((sha256 (serializeUserData sampleUserData)).take 4) rfl [0]

/-- C5: for lengths `m < n` within the valid range, the `m`-byte hash of a
record is exactly the first `m` bytes of its `n`-byte hash. -/
theorem hash_truncation (u : UserData) (m n : Nat) (hmn : m < n)
    (hn : n ≤ digestSize) (hm hn2 : List Nat)
    (h1 : u.hash m = Except.ok hm) (h2 : u.hash n = Except.ok hn2) :
    hm = hn2.take m := by
  rw [hash_ok u m (by omega)] at h1
  rw [hash_ok u n hn] at h2
  rw [← Except.ok.inj h1, ← Except.ok.inj h2]
  rw [List.take_take]
  rw [min_eq_left (le_of_lt hmn)]

/-- Witness for C5 at a concrete record and lengths 1 < 2. -/
theorem hash_truncation_witness :
    (sha256 (serializeUserData sampleUserData)).take 1 =
      ((sha256 (serializeUserData sampleUserData)).take 2).take 1 :=
  hash_truncation sampleUserData 1 2 (by decide) (by decide)
    ((sha256 (serializeUserData sampleUserData)).take 1)
    ((sha256 (serializeUserData sampleUserData)).take 2) rfl rfl

/-- C7: a hash request beyond the digest's native output size is the
deterministic typed failure `AuthenticatorLengthUnsupported`. -/
theorem hash_length_unsupported (u : UserData) (n : Nat)
    (hn : digestSize < n) :
    u.hash n = Except.error HashError.AuthenticatorLengthUnsupported := by
  unfold UserData.hash
  rw [if_pos hn]

/-- Witness for C7 at a concrete record and the length 33. -/
theorem hash_length_unsupported_witness :
    UserData.hash sampleUserData 33 =
      Except.error HashError.AuthenticatorLengthUnsupported :=
  hash_length_unsupported sampleUserData 33 (by decide)

/-- C8: the record with identity commitment `abc`, public key `xyz` and
policy `OptOut`, hashed at length 8, differs from the hash of the
otherwise identical record with policy `OptIn`. -/
theorem hash_data_policy_sensitive :
    UserData.hash
        { identity_commitment := "abc", self_custody_public_key := "xyz",
          data_policy := DataPolicy.OptOut } 8 ≠
      UserData.hash
        { identity_commitment := "abc", self_custody_public_key := "xyz",
          data_policy := DataPolicy.OptIn } 8 := by
  intro h
  exact absurd (Except.ok.inj h) (by decide)

/-! ## Claim theorem: Orb revision display -/

/-- C10: the `OrbRevision` display is a total function of the version
value: below the `HwVersionDiamondPoc1` tag it prints `EVT` followed by
the raw version, at or above the tag it prints `Diamond_POC` followed by
the version minus the tag plus one, and exactly at the tag the Diamond POC
numbering starts at 1. -/
theorem orbRevision_display (poc1 : Int) (r : OrbRevision) :
    (r.version < poc1 →
      orbRevisionDisplay poc1 r = "EVT" ++ toString r.version) ∧
    (poc1 ≤ r.version →
      orbRevisionDisplay poc1 r =
        "Diamond_POC" ++ toString (r.version - poc1 + 1)) ∧
    (r.version = poc1 → orbRevisionDisplay poc1 r = "Diamond_POC1") := by
  refine ⟨fun h => ?_, fun h => ?_, fun h => ?_⟩
  · unfold orbRevisionDisplay
    rw [if_pos h]
  · unfold orbRevisionDisplay
    rw [if_neg (not_lt.2 h)]
  · unfold orbRevisionDisplay
    rw [h, if_neg (lt_irrefl poc1)]
    rw [show poc1 - poc1 + 1 = (1 : Int) from by ring]
    rfl

/-- Witness for C10 at the tag value 5 and the versions 3 and 5. -/
theorem orbRevision_display_witness :
    orbRevisionDisplay 5 { version := 3 } = "EVT" ++ toString (3 : Int) ∧
      orbRevisionDisplay 5 { version := 5 } = "Diamond_POC1" :=
  ⟨(orbRevision_display 5 { version := 3 }).1 (by decide),
   (orbRevision_display 5 { version := 5 }).2.2 rfl⟩
